import Mathlib

/-
Verification of the tensor library's shape metadata, indexing, arithmetic,
similarity and checked-cast layers, by a shallow embedding into Lean.

Two lineages coexist in the source and both are modelled here:
 * the fixed-rank tensor (src/metadata.rs, src/access.rs, src/transform.rs,
   src/cast/impls.rs, src/ops/add.rs, src/ops/div.rs, src/ops/similarity.rs),
   whose geometry lives in `TensorMetaData`;
 * the dynamic-rank, Vec-based tensor (src/tensor.rs, src/ops/core.rs,
   src/algorithms/similarity.rs), modelled as `DTensor`.

Machine integers `usize` are modelled by `Nat` (the quantities involved are
sizes, strides and offsets, all non-negative and far from overflow in every
statement below).  Rust panics are modelled by the `Except String` error
monad.  Element buffers are modelled as Lean lists holding the initialized
elements in linear (row-major) order.
-/

namespace TensorSpec

/-- Result of a fallible operation; a Rust panic becomes `Except.error msg`
with the panic message from the source. -/
abbrev Panics (α : Type _) := Except String α

/-! ## Shape metadata (fixed-rank lineage, src/metadata.rs) -/

/-- Strides-and-size computation, from `TensorMetaData::compute`
(src/metadata.rs lines 95-112).  The source loop walks the dimensions from
the last axis to the first with two accumulators `stride` and `size`, both
starting at 1; at axis `i` it first records `strides[i] := stride` and then
multiplies both accumulators by `dims[i]`.  Since both accumulators receive
exactly the same multiplications, the stride recorded at axis `i` is the
product of the dimensions after `i`, and the final size is the product of
all dimensions.  The recursion below performs the same right-to-left walk:
for `d :: rest` the recorded stride is the size of `rest` and the size is
`d` times it. -/
def compute : List Nat → Nat × List Nat
  | [] => (1, [])
  | d :: rest =>
    let p := compute rest
    (d * p.1, p.1 :: p.2)

/-- Shape metadata of one fixed-rank tensor: dimension array, derived
stride array and total element count, from `TensorMetaData`
(src/metadata.rs lines 8-13).  The rank `R` of the source is the length of
`dims`. -/
structure TensorMetaData where
  dims : List Nat
  strides : List Nat
  size : Nat
  deriving Repr, DecidableEq

/-- Constructor `TensorMetaData::new` (src/metadata.rs lines 24-33):
computes size and strides from the dimensions and panics via
`assert_non_zero_size` when the computed size is 0. -/
def TensorMetaData.new (dims : List Nat) : Panics TensorMetaData :=
  let p := compute dims
  if p.1 = 0 then
    .error "Invalid dimensions: dimensions' size must be greater than 0"
  else
    .ok { dims := dims, strides := p.2, size := p.1 }

/-- Constructor `TensorMetaData::new_cmp_eq` (src/metadata.rs lines 44-53):
computes size and strides and panics via `assert_same_size` when the
provided count `n` differs from the computed size; the stored size is `n`. -/
def TensorMetaData.new_cmp_eq (n : Nat) (dims : List Nat) : Panics TensorMetaData :=
  let p := compute dims
  if n = p.1 then
    .ok { dims := dims, strides := p.2, size := n }
  else
    .error "Invalid shape: values' count doesn't match dimensions' size"

/-- Method `TensorMetaData::reshape` (src/metadata.rs lines 80-89):
recomputes size and strides for the new dimensions and panics via
`assert_same_size` when the current size differs from the newly computed
size; otherwise updates size, strides and dims. -/
def TensorMetaData.reshape (md : TensorMetaData) (dims : List Nat) :
    Panics TensorMetaData :=
  let p := compute dims
  if md.size = p.1 then
    .ok { dims := dims, strides := p.2, size := p.1 }
  else
    .error "Invalid shape: values' count doesn't match dimensions' size"

/-- Offset computation walking index, dims and strides positionally, from
`TensorMetaData::offset` (src/metadata.rs lines 119-138): at every axis the
coordinate is checked against the dimension (`idx < dim`) and on success
`idx * stride` is accumulated; any out-of-bounds coordinate panics.  The
source walks the axes from the last to the first; the accumulated sum does
not depend on that order, and every axis reports the same panic message, so
a left-to-right walk is observationally identical. -/
def offsetAux : List Nat → List Nat → List Nat → Panics Nat
  | [], _, _ => .ok 0
  | i :: is, d :: ds, s :: ss =>
    if i < d then
      match offsetAux is ds ss with
      | .ok rest => .ok (i * s + rest)
      | .error e => .error e
    else .error "Index out of bounds"
  | _ :: _, [], _ => .error "Index out of bounds"
  | _ :: _, _ :: _, [] => .error "Index out of bounds"

/-- Method `TensorMetaData::offset` applied to a coordinate tuple; the rank
of the tuple equals the rank of the metadata at every call site of the
source (the index parameter is `&[usize; R]`). -/
def TensorMetaData.offset (md : TensorMetaData) (index : List Nat) : Panics Nat :=
  offsetAux index md.dims md.strides

/-- Shape comparison `TensorMetaData::cmp_dims_eq` (src/metadata.rs lines
142-156): element-wise equality of the dimension arrays. -/
def TensorMetaData.cmp_dims_eq (a b : TensorMetaData) : Bool :=
  a.dims = b.dims

/-! ## Fixed-rank tensor (src/instance.rs, src/access.rs, src/transform.rs) -/

/-- Fixed-rank tensor: one metadata instance plus the exclusively owned
buffer, from `Tensor` (the `metadata`/`data` pair used throughout
src/instance.rs, src/access.rs and src/cast/impls.rs).  The buffer is
modelled as the list of its initialized elements in linear order. -/
structure Tensor (T : Type _) where
  metadata : TensorMetaData
  data : List T
  deriving Repr

/-- Constructor `Tensor::new_set` (src/instance.rs lines 31-44): builds
metadata from the dimensions (panicking on a zero-size shape) and fills a
fresh buffer of `metadata.size` elements with copies of `value`. -/
def Tensor.new_set {T : Type _} (dimensions : List Nat) (value : T) :
    Panics (Tensor T) :=
  match TensorMetaData.new dimensions with
  | .ok md => .ok { metadata := md, data := List.replicate md.size value }
  | .error e => .error e

/-- Constructor `Tensor::from_slice` (src/instance.rs lines 109-121): builds
metadata via the validated constructor (panicking when the value count does
not match the product of the dimensions) and copies the values into the
buffer. -/
def Tensor.from_slice {T : Type _} (dimensions : List Nat) (values : List T) :
    Panics (Tensor T) :=
  match TensorMetaData.new_cmp_eq values.length dimensions with
  | .ok md => .ok { metadata := md, data := values }
  | .error e => .error e

/-- Accessor `Tensor::shape` (src/access.rs lines 42-44). -/
def Tensor.shape {T : Type _} (t : Tensor T) : List Nat :=
  t.metadata.dims

/-- Accessor `Tensor::size` (src/access.rs lines 58-60). -/
def Tensor.size {T : Type _} (t : Tensor T) : Nat :=
  t.metadata.size

/-- Accessor `Tensor::as_slice` (src/access.rs lines 88-90): the first
`metadata.size` initialized elements as a flat view; under the tensor
invariant this is the whole buffer. -/
def Tensor.as_slice {T : Type _} (t : Tensor T) : List T :=
  t.data

/-- Method `Tensor::get` (src/access.rs lines 35-38): computes the offset
through the metadata (panicking on an out-of-bounds coordinate) and loads
from the buffer at that linear offset.  The raw load of the source is
unchecked; the model returns an error when the offset would fall outside
the initialized elements, and the theorems below show that under the
tensor invariant this never happens. -/
def Tensor.get {T : Type _} (t : Tensor T) (index : List Nat) : Panics T :=
  match t.metadata.offset index with
  | .ok o =>
    match t.data.get? o with
    | some v => .ok v
    | none => .error "load out of initialized range"
  | .error e => .error e

/-- Method `Tensor::set` (src/access.rs lines 17-22): computes the offset
through the metadata (panicking on an out-of-bounds coordinate) and stores
the value at that linear offset. -/
def Tensor.set {T : Type _} (t : Tensor T) (index : List Nat) (value : T) :
    Panics (Tensor T) :=
  match t.metadata.offset index with
  | .ok o => .ok { t with data := t.data.set o value }
  | .error e => .error e

/-- Method `Tensor::reshape` (src/transform.rs lines 20-22): delegates to
`TensorMetaData::reshape`; the buffer is untouched. -/
def Tensor.reshape {T : Type _} (t : Tensor T) (dimensions : List Nat) :
    Panics (Tensor T) :=
  match t.metadata.reshape dimensions with
  | .ok md => .ok { t with metadata := md }
  | .error e => .error e

/-- Method `Tensor::change_rank` (src/transform.rs lines 39-44): builds new
metadata of possibly different rank via the validated constructor
(panicking when the element count differs) and moves the buffer into the
result without copying. -/
def Tensor.change_rank {T : Type _} (t : Tensor T) (dimensions : List Nat) :
    Panics (Tensor T) :=
  match TensorMetaData.new_cmp_eq t.metadata.size dimensions with
  | .ok md => .ok { metadata := md, data := t.data }
  | .error e => .error e

/-- Well-formedness of a fixed-rank tensor: the strides are the ones
computed from the dimensions, the stored size is the product of the
dimensions, and the buffer holds exactly `size` initialized elements.
Every public constructor establishes this and every operation preserves
it (the core cross-component invariant of the design). -/
def Tensor.wf {T : Type _} (t : Tensor T) : Prop :=
  t.metadata.strides = (compute t.metadata.dims).2 ∧
    t.metadata.size = t.metadata.dims.prod ∧
    t.data.length = t.metadata.size

/-! ## Dynamic-rank tensor (src/tensor.rs, src/ops/core.rs) -/

/-- Dynamic-rank, Vec-based tensor, from `Tensor<T>` (src/tensor.rs lines
12-16): flat data vector, dimension vector and stride vector. -/
structure DTensor (T : Type _) where
  data : List T
  dimensions : List Nat
  strides : List Nat
  deriving Repr

/-- Stride computation `Tensor::compute_strides` (src/tensor.rs lines
96-102): starts from a vector of ones and applies
`strides[i] = strides[i+1] * dimensions[i+1]` for `i` from `R-2` down to
`0`.  The recursion below computes the same recurrence from the right: the
stride of the head axis is the stride of the next axis (the head of the
recursive result, which the loop initializes to 1 for the last axis) times
the next dimension.  For an empty dimension vector the source's loop bound
`dimensions.len() - 1` underflows; no call site reaches that case and the
model returns the empty vector. -/
def compute_strides : List Nat → List Nat
  | [] => []
  | [_] => [1]
  | _ :: d2 :: rest =>
    let tail := compute_strides (d2 :: rest)
    tail.headD 1 * d2 :: tail

/-- Constructor `Tensor::new` (src/tensor.rs lines 45-54): element count is
the product of the dimensions, the data vector is filled with the initial
value, strides are computed. -/
def DTensor.new {T : Type _} (dimensions : List Nat) (initial_value : T) :
    DTensor T :=
  { data := List.replicate dimensions.prod initial_value,
    dimensions := dimensions,
    strides := compute_strides dimensions }

/-- Modelled from the spec: `assert_valid_dimensions` is called by
`Tensor::with_values` and `Tensor::reshape` (src/tensor.rs lines 87 and
182) but its definition is not among the provided sources.  Following the
spec's construction surface ("failing if `values.len() != product(dims)`")
and the documented panic of reshape ("if the new dimensions do not match
the number of elements"), it panics exactly when the value count differs
from the product of the dimensions. -/
def assert_valid_dimensions {T : Type _} (values : List T) (dimensions : List Nat) :
    Panics Unit :=
  if values.length = dimensions.prod then .ok ()
  else .error "New dimensions must have the same number of elements"

/-- Constructor `Tensor::with_values` (src/tensor.rs lines 86-93). -/
def DTensor.with_values {T : Type _} (values : List T) (dimensions : List Nat) :
    Panics (DTensor T) :=
  match assert_valid_dimensions values dimensions with
  | .ok _ =>
    .ok { data := values,
          strides := compute_strides dimensions,
          dimensions := dimensions }
  | .error e => .error e

/-- Method `Tensor::linear_index` (src/tensor.rs lines 118-128): panics
when the number of indices differs from the number of dimensions, and
otherwise returns the sum of `index[i] * strides[i]` over the zipped index
and stride vectors.  No per-axis bound is checked here. -/
def DTensor.linear_index {T : Type _} (t : DTensor T) (indices : List Nat) :
    Panics Nat :=
  if indices.length ≠ t.dimensions.length then
    .error "Incorrect number of indices"
  else
    .ok (List.zipWith (· * ·) indices t.strides).sum

/-- Method `Tensor::get` (src/tensor.rs lines 143-145): indexes the data
vector at the linear index; the `Vec` indexing panics when the linear index
is not below the data length. -/
def DTensor.get {T : Type _} (t : DTensor T) (indices : List Nat) : Panics T :=
  match t.linear_index indices with
  | .ok i =>
    match t.data.get? i with
    | some v => .ok v
    | none => .error "index out of bounds"
  | .error e => .error e

/-- Method `Tensor::set` (src/tensor.rs lines 158-161): stores at the
linear index; the `Vec` indexing panics when the linear index is not below
the data length. -/
def DTensor.set {T : Type _} (t : DTensor T) (indices : List Nat) (value : T) :
    Panics (DTensor T) :=
  match t.linear_index indices with
  | .ok i =>
    if i < t.data.length then .ok { t with data := t.data.set i value }
    else .error "index out of bounds"
  | .error e => .error e

/-- Accessor `Tensor::shape` (src/tensor.rs lines 168-170). -/
def DTensor.shape {T : Type _} (t : DTensor T) : List Nat :=
  t.dimensions

/-- Method `Tensor::len` (src/tensor.rs lines 221-223): recomputes the
element count as the product of the dimensions. -/
def DTensor.len {T : Type _} (t : DTensor T) : Nat :=
  t.dimensions.prod

/-- Method `Tensor::reshape` (src/tensor.rs lines 181-186): panics via
`assert_valid_dimensions` when the data length differs from the product of
the new dimensions; otherwise recomputes strides and replaces the
dimensions, leaving the data untouched. -/
def DTensor.reshape {T : Type _} (t : DTensor T) (dimensions : List Nat) :
    Panics (DTensor T) :=
  match assert_valid_dimensions t.data dimensions with
  | .ok _ =>
    .ok { data := t.data,
          strides := compute_strides dimensions,
          dimensions := dimensions }
  | .error e => .error e

/-- Well-formedness of a dynamic-rank tensor: the buffer holds exactly
`product(dimensions)` elements and the strides are the computed ones. -/
def DTensor.wf {T : Type _} (t : DTensor T) : Prop :=
  t.data.length = t.dimensions.prod ∧ t.strides = compute_strides t.dimensions

/-! ## Element-wise arithmetic, dynamic-rank lineage (src/ops/core.rs) -/

/-- In-place loop shared by the mutating operators of src/ops/core.rs
(`for (a, b) in self.data.iter_mut().zip(&other.data) { *a op= *b }`):
each element of the first vector paired by the zip is overwritten with the
combination, and elements beyond the end of the shorter vector remain
unchanged. -/
def mutateZip {T : Type _} (f : T → T → T) : List T → List T → List T
  | [], _ => []
  | xs, [] => xs
  | x :: xs, y :: ys => f x y :: mutateZip f xs ys

/-- Allocating element-wise addition `Tensor::add` (src/ops/core.rs lines
46-64): panics on a dimension mismatch, otherwise collects the element-wise
sums into a fresh data vector, keeping dimensions and strides. -/
def DTensor.add {T : Type _} [Add T] (a b : DTensor T) : Panics (DTensor T) :=
  if a.dimensions ≠ b.dimensions then
    .error "Tensors must have the same dimensions for addition"
  else
    .ok { data := List.zipWith (· + ·) a.data b.data,
          dimensions := a.dimensions, strides := a.strides }

/-- Mutating element-wise addition `Tensor::add_mutate` (src/ops/core.rs
lines 332-341). -/
def DTensor.add_mutate {T : Type _} [Add T] (a b : DTensor T) : Panics (DTensor T) :=
  if a.dimensions ≠ b.dimensions then
    .error "Tensors must have the same dimensions for addition"
  else
    .ok { a with data := mutateZip (· + ·) a.data b.data }

/-- Allocating element-wise subtraction `Tensor::sub` (src/ops/core.rs
lines 106-124). -/
def DTensor.sub {T : Type _} [Sub T] (a b : DTensor T) : Panics (DTensor T) :=
  if a.dimensions ≠ b.dimensions then
    .error "Tensors must have the same dimensions for subtraction"
  else
    .ok { data := List.zipWith (· - ·) a.data b.data,
          dimensions := a.dimensions, strides := a.strides }

/-- Mutating element-wise subtraction `Tensor::sub_mutate` (src/ops/core.rs
lines 377-386). -/
def DTensor.sub_mutate {T : Type _} [Sub T] (a b : DTensor T) : Panics (DTensor T) :=
  if a.dimensions ≠ b.dimensions then
    .error "Tensors must have the same dimensions for subtraction"
  else
    .ok { a with data := mutateZip (· - ·) a.data b.data }

/-- Allocating element-wise multiplication `Tensor::mul` (src/ops/core.rs
lines 166-184). -/
def DTensor.mul {T : Type _} [Mul T] (a b : DTensor T) : Panics (DTensor T) :=
  if a.dimensions ≠ b.dimensions then
    .error "Tensors must have the same dimensions for multiplication"
  else
    .ok { data := List.zipWith (· * ·) a.data b.data,
          dimensions := a.dimensions, strides := a.strides }

/-- Mutating element-wise multiplication `Tensor::mul_mutate`
(src/ops/core.rs lines 423-432). -/
def DTensor.mul_mutate {T : Type _} [Mul T] (a b : DTensor T) : Panics (DTensor T) :=
  if a.dimensions ≠ b.dimensions then
    .error "Tensors must have the same dimensions for multiplication"
  else
    .ok { a with data := mutateZip (· * ·) a.data b.data }

/-- Element-wise checked-division loop of `Tensor::div` (src/ops/core.rs
lines 234-244): the zipped pairs are consumed left to right and each
divisor element is compared with `T::default()` before dividing; the first
divisor element equal to the default panics with "Division by zero".  The
default value is passed explicitly as `dflt` (it is `T::default()` at the
call site, the zero of every numeric element type). -/
def divChecked {T : Type _} [Div T] [DecidableEq T] (dflt : T) :
    List T → List T → Panics (List T)
  | [], _ => .ok []
  | _ :: _, [] => .ok []
  | a :: as_, b :: bs =>
    if b = dflt then .error "Division by zero"
    else
      match divChecked dflt as_ bs with
      | .ok rest => .ok (a / b :: rest)
      | .error e => .error e

/-- Allocating element-wise division `Tensor::div` (src/ops/core.rs lines
227-252): panics on a dimension mismatch, then panics with "Division by
zero" on the first divisor element equal to `T::default()`, otherwise
collects the element-wise quotients. -/
def DTensor.div {T : Type _} [Div T] [DecidableEq T] (dflt : T)
    (a b : DTensor T) : Panics (DTensor T) :=
  if a.dimensions ≠ b.dimensions then
    .error "Tensors must have the same dimensions for division"
  else
    match divChecked dflt a.data b.data with
    | .ok data =>
      .ok { data := data, dimensions := a.dimensions, strides := a.strides }
    | .error e => .error e

/-- In-place checked-division loop of `Tensor::div_mutate` (src/ops/core.rs
lines 477-482): same left-to-right walk and zero check as the allocating
form, overwriting each element of the first vector in place; elements past
the zip's end stay unchanged. -/
def divMutateZip {T : Type _} [Div T] [DecidableEq T] (dflt : T) :
    List T → List T → Panics (List T)
  | [], _ => .ok []
  | xs, [] => .ok xs
  | a :: as_, b :: bs =>
    if b = dflt then .error "Division by zero"
    else
      match divMutateZip dflt as_ bs with
      | .ok rest => .ok (a / b :: rest)
      | .error e => .error e

/-- Mutating element-wise division `Tensor::div_mutate` (src/ops/core.rs
lines 470-484). -/
def DTensor.div_mutate {T : Type _} [Div T] [DecidableEq T] (dflt : T)
    (a b : DTensor T) : Panics (DTensor T) :=
  if a.dimensions ≠ b.dimensions then
    .error "Tensors must have the same dimensions for division"
  else
    match divMutateZip dflt a.data b.data with
    | .ok data => .ok { a with data := data }
    | .error e => .error e

/-! ## Element-wise division, fixed-rank lineage (src/ops/div.rs) -/

/-- Division operator `Div for &Tensor<T, R>` (src/ops/div.rs lines
48-65): panics via `assert_same_shape` on a dimension mismatch, then runs
the unchecked loop `div(len, a, b, r)` (lines 9-20) which writes
`r[i] = a[i] / b[i]` for every `i` below `len = metadata.size` with **no
zero check**, deferring entirely to the element type's division.  Under
the tensor invariant both buffers hold `len` elements, so the loop is the
element-wise zip of the two buffers. -/
def Tensor.div {T : Type _} [Div T] (a b : Tensor T) : Panics (Tensor T) :=
  if a.metadata.dims ≠ b.metadata.dims then
    .error "Tensors must have the same shape"
  else
    .ok { metadata := a.metadata,
          data := List.zipWith (· / ·) a.data b.data }

/-! ## Checked numeric cast, fixed-rank lineage (src/cast/impls.rs) -/

/-- Cast error taxonomy, from `CastError` (src/cast/error.rs): exactly two
variants. -/
inductive CastError where
  | Overflow
  | PrecisionLoss
  deriving Repr, DecidableEq

/-- Observable outcome of `Tensor::try_cast`.  The success case carries the
result tensor.  The error case carries, besides the returned `CastError`,
the two cleanup quantities of the rollback path (src/cast/impls.rs lines
24-29): `dropped` is the count passed to `result.drop_initialized`
(elements of the temporary buffer destructed) and `deallocated` the count
passed to `result.deallocate` (size of the freed allocation). -/
inductive CastOutcome (U : Type _) where
  | ok (result : Tensor U)
  | err (e : CastError) (dropped : Nat) (deallocated : Nat)
  deriving Repr

/-- Conversion loop of `Tensor::try_cast` (src/cast/impls.rs lines 18-32):
walks the source elements in order, appending each successful conversion
to the temporary result buffer (`stored`); on the first failing element it
destructs the `i` elements already stored (`stored.length`), frees the
whole `len`-element allocation, and returns the error. -/
def tryCastLoop {T U : Type _} (f : T → Except CastError U) (len : Nat) :
    List T → List U → Except (CastError × Nat × Nat) (List U)
  | [], stored => .ok stored
  | t :: rest, stored =>
    match f t with
    | .ok u => tryCastLoop f len rest (stored ++ [u])
    | .error e => .error (e, stored.length, len)

/-- Method `Tensor::try_cast` (src/cast/impls.rs lines 7-42): allocates a
temporary buffer of `len = metadata.size` elements, converts the source
elements one by one with the per-element conversion `f` (the `TryCast`
implementation of the element pair), and either returns a tensor with the
source's metadata over the fully converted buffer, or rolls the buffer
back and returns the error. -/
def Tensor.try_cast {T U : Type _} (f : T → Except CastError U)
    (t : Tensor T) : CastOutcome U :=
  match tryCastLoop f t.metadata.size t.data [] with
  | .ok stored => .ok { metadata := t.metadata, data := stored }
  | .error (e, d, n) => .err e d n

/-- Per-element conversion `TryCast<u8> for u16` (src/cast/int16.rs lines
81-88): values above `u8::MAX` overflow.  Used as a concrete conversion
table entry in witnesses. -/
def u16_try_cast_u8 (x : Nat) : Except CastError Nat :=
  if x > 255 then .error .Overflow else .ok x

/-! ## Similarity metrics (src/algorithms/similarity.rs, src/ops/similarity.rs)

Both lineages compute cosine similarity with the same observable structure:
the dot product `Σ a[i]*b[i]`, the two squared-norm sums `Σ a[i]²` and
`Σ b[i]²`, the two Euclidean norms as `sqrt` of these sums promoted to
`f64`, and then the branch `if norm_a == 0.0 || norm_b == 0.0 { 0.0 } else
{ dot / (norm_a * norm_b) }`.  The 64-bit float `f64` is modelled by the
real numbers and `f64::sqrt` by `Real.sqrt`; the definition is generic in
the carrier field `F` and the square-root function so that the branch
structure is stated once. -/

/-- Cosine similarity `Tensor::cosine_similarity` (src/algorithms/similarity.rs
lines 59-91; the fixed-rank twin at src/ops/similarity.rs lines 35-70
computes the identical expression): panics on a dimension mismatch,
computes the dot product and the two norms, and returns exactly zero when
either norm equals zero, otherwise the quotient. -/
def DTensor.cosine_similarity {F : Type _} [Field F] [DecidableEq F]
    (sqrt : F → F) (a b : DTensor F) : Panics F :=
  if a.dimensions ≠ b.dimensions then
    .error "Tensors must have the same dimensions"
  else
    let dot := (List.zipWith (· * ·) a.data b.data).sum
    let magnitude1 := sqrt (a.data.map (fun x => x * x)).sum
    let magnitude2 := sqrt (b.data.map (fun x => x * x)).sum
    if magnitude1 = 0 ∨ magnitude2 = 0 then .ok 0
    else .ok (dot / (magnitude1 * magnitude2))

/-! ## Lemmas about the stride computation -/

theorem compute_fst (dims : List Nat) : (compute dims).1 = dims.prod := by
  induction dims with
  | nil => rfl
  | cons d rest ih => simp [compute, ih]

theorem compute_snd_length (dims : List Nat) :
    (compute dims).2.length = dims.length := by
  induction dims with
  | nil => rfl
  | cons d rest ih => simp [compute, ih]

theorem compute_snd_getElem? (dims : List Nat) (i : Nat) (h : i < dims.length) :
    (compute dims).2[i]? = some (dims.drop (i + 1)).prod := by
  induction dims generalizing i with
  | nil => simp at h
  | cons d rest ih =>
    cases i with
    | zero => simp [compute, compute_fst]
    | succ n =>
      have hn : n < rest.length := by simpa using h
      simpa [compute] using ih n hn

theorem compute_strides_eq (dims : List Nat) :
    compute_strides dims = (compute dims).2 := by
  induction dims with
  | nil => rfl
  | cons d rest ih =>
    cases rest with
    | nil => rfl
    | cons d2 rest2 =>
      have hhead : (compute_strides (d2 :: rest2)).headD 1 = (compute rest2).1 := by
        rw [ih]; simp [compute]
      simp [compute_strides, ih, hhead, compute, Nat.mul_comm]

/-! ## Lemmas about the offset computation -/

/-- Closed form of the row-major linear offset of a coordinate tuple:
each coordinate is weighted by the product of the dimensions after its
axis. -/
def rowVal : List Nat → List Nat → Nat
  | [], _ => 0
  | _ :: _, [] => 0
  | i :: is, _ :: ds => i * ds.prod + rowVal is ds

theorem rowVal_lt_prod {idx dims : List Nat}
    (h : List.Forall₂ (· < ·) idx dims) : rowVal idx dims < dims.prod := by
  induction h with
  | nil => simp [rowVal]
  | @cons a b l₁ l₂ hab _ ih =>
    have h1 : a * l₂.prod + rowVal l₁ l₂ < (a + 1) * l₂.prod := by
      rw [Nat.succ_mul]
      exact Nat.add_lt_add_left ih _
    have h2 : (a + 1) * l₂.prod ≤ b * l₂.prod :=
      Nat.mul_le_mul_right _ hab
    simpa [rowVal] using Nat.lt_of_lt_of_le h1 h2

theorem offsetAux_eq_rowVal {idx dims : List Nat}
    (h : List.Forall₂ (· < ·) idx dims) :
    offsetAux idx dims (compute dims).2 = .ok (rowVal idx dims) := by
  induction h with
  | nil => rfl
  | @cons a b l₁ l₂ hab _ ih =>
    simp [offsetAux, compute, hab, ih, rowVal, compute_fst]

theorem offsetAux_isOk_iff {idx dims strides : List Nat}
    (h1 : idx.length = dims.length) (h2 : strides.length = dims.length) :
    (∃ n, offsetAux idx dims strides = .ok n) ↔
      List.Forall₂ (· < ·) idx dims := by
  induction idx generalizing dims strides with
  | nil =>
    have : dims = [] := by
      cases dims with
      | nil => rfl
      | cons d ds => simp at h1
    subst this
    simp [offsetAux]
  | cons i is ih =>
    cases dims with
    | nil => simp at h1
    | cons d ds =>
      cases strides with
      | nil => simp at h2
      | cons s ss =>
        have h1' : is.length = ds.length := by simpa using h1
        have h2' : ss.length = ds.length := by simpa using h2
        by_cases hid : i < d
        · constructor
          · intro ⟨n, hn⟩
            refine List.Forall₂.cons hid ?_
            rw [← ih h1' h2']
            simp only [offsetAux, if_pos hid] at hn
            cases hrec : offsetAux is ds ss with
            | ok m => exact ⟨m, rfl⟩
            | error e => rw [hrec] at hn; exact absurd hn (by simp)
          · intro hall
            cases hall with
            | cons _ htail =>
              obtain ⟨m, hm⟩ := (ih h1' h2').mpr htail
              exact ⟨i * s + m, by simp [offsetAux, if_pos hid, hm]⟩
        · constructor
          · intro ⟨n, hn⟩
            simp [offsetAux, if_neg hid] at hn
          · intro hall
            cases hall with
            | cons hhead _ => exact absurd hhead hid

theorem rowVal_inj {idx idx' dims : List Nat}
    (h : List.Forall₂ (· < ·) idx dims) (h' : List.Forall₂ (· < ·) idx' dims)
    (heq : rowVal idx dims = rowVal idx' dims) : idx = idx' := by
  induction dims generalizing idx idx' with
  | nil =>
    cases h
    cases h'
    rfl
  | cons d ds ih =>
    cases h with
    | @cons a _ l₁ _ ha htail =>
      cases h' with
      | @cons b _ l₂ _ hb htail' =>
        have hra : rowVal l₁ ds < ds.prod := rowVal_lt_prod htail
        have hrb : rowVal l₂ ds < ds.prod := rowVal_lt_prod htail'
        have hP : 0 < ds.prod := Nat.pos_of_ne_zero fun h0 => by
          rw [h0] at hra; exact Nat.not_lt_zero _ hra
        have hval : a * ds.prod + rowVal l₁ ds = b * ds.prod + rowVal l₂ ds := by
          simpa [rowVal] using heq
        have hab : a = b := by
          have da : (a * ds.prod + rowVal l₁ ds) / ds.prod = a := by
            rw [Nat.add_comm, Nat.mul_comm, Nat.add_mul_div_left _ _ hP,
              Nat.div_eq_of_lt hra, Nat.zero_add]
          have db : (b * ds.prod + rowVal l₂ ds) / ds.prod = b := by
            rw [Nat.add_comm, Nat.mul_comm, Nat.add_mul_div_left _ _ hP,
              Nat.div_eq_of_lt hrb, Nat.zero_add]
          rw [← da, ← db, hval]
        subst hab
        have hr : rowVal l₁ ds = rowVal l₂ ds := Nat.add_left_cancel hval
        rw [ih htail htail' hr]

/-! ## Lemmas about the element-wise loops -/

theorem mutateZip_eq_zipWith {T : Type _} (f : T → T → T) :
    ∀ {as_ bs : List T}, as_.length = bs.length →
      mutateZip f as_ bs = List.zipWith f as_ bs := by
  intro as_
  induction as_ with
  | nil => intro bs _; cases bs <;> rfl
  | cons a rest ih =>
    intro bs h
    cases bs with
    | nil => simp at h
    | cons b bs' =>
      have h' : rest.length = bs'.length := by simpa using h
      simp [mutateZip, List.zipWith, ih h']

theorem divMutateZip_eq_divChecked {T : Type _} [Div T] [DecidableEq T]
    (dflt : T) :
    ∀ {as_ bs : List T}, as_.length = bs.length →
      divMutateZip dflt as_ bs = divChecked dflt as_ bs := by
  intro as_
  induction as_ with
  | nil => intro bs _; cases bs <;> rfl
  | cons a rest ih =>
    intro bs h
    cases bs with
    | nil => simp at h
    | cons b bs' =>
      have h' : rest.length = bs'.length := by simpa using h
      simp only [divMutateZip, divChecked, ih h']

theorem divChecked_error_iff {T : Type _} [Div T] [DecidableEq T] (dflt : T) :
    ∀ {as_ bs : List T}, as_.length = bs.length →
      ((∃ e, divChecked dflt as_ bs = .error e) ↔ dflt ∈ bs) := by
  intro as_
  induction as_ with
  | nil =>
    intro bs h
    have : bs = [] := List.length_eq_zero.mp h.symm
    subst this
    simp [divChecked]
  | cons a rest ih =>
    intro bs h
    cases bs with
    | nil => simp at h
    | cons b bs' =>
      have h' : rest.length = bs'.length := by simpa using h
      by_cases hb : b = dflt
      · subst hb
        simp [divChecked]
      · have hne : ¬dflt = b := fun hc => hb hc.symm
        constructor
        · intro ⟨e, he⟩
          simp only [divChecked, if_neg hb] at he
          cases hrec : divChecked dflt rest bs' with
          | ok l => rw [hrec] at he; exact absurd he (by simp)
          | error e' =>
            have : dflt ∈ bs' := (ih h').mp ⟨e', hrec⟩
            exact List.mem_cons_of_mem _ this
        · intro hmem
          rcases List.mem_cons.mp hmem with hc | hc
          · exact absurd hc hne
          · obtain ⟨e, he⟩ := (ih h').mpr hc
            exact ⟨e, by simp [divChecked, if_neg hb, he]⟩

/-! ## Lemmas about the cast loop -/

theorem tryCastLoop_error {T U : Type _} (f : T → Except CastError U)
    (len : Nat) (e : CastError) :
    ∀ (pre : List T) (x : T) (post : List T) (stored : List U),
      (∀ y ∈ pre, ∃ u, f y = .ok u) → f x = .error e →
      tryCastLoop f len (pre ++ x :: post) stored =
        .error (e, stored.length + pre.length, len) := by
  intro pre
  induction pre with
  | nil =>
    intro x post stored _ hx
    simp [tryCastLoop, hx]
  | cons y pre' ih =>
    intro x post stored hpre hx
    obtain ⟨u, hu⟩ := hpre y (List.mem_cons_self _ _)
    have hrest : ∀ z ∈ pre', ∃ v, f z = .ok v := fun z hz =>
      hpre z (List.mem_cons_of_mem _ hz)
    have hrec := ih x post (stored ++ [u]) hrest hx
    have harith : (stored ++ [u]).length + pre'.length =
        stored.length + (pre'.length + 1) := by
      simp [List.length_append]
      omega
    simp only [List.cons_append, tryCastLoop, hu, List.length_cons]
    rw [← harith]
    exact hrec

theorem tryCastLoop_ok {T U : Type _} (f : T → Except CastError U)
    (g : T → U) (len : Nat) :
    ∀ (src : List T) (stored : List U),
      (∀ y ∈ src, f y = .ok (g y)) →
      tryCastLoop f len src stored = .ok (stored ++ src.map g) := by
  intro src
  induction src with
  | nil => intro stored _; simp [tryCastLoop]
  | cons x rest ih =>
    intro stored hall
    have hx : f x = .ok (g x) := hall x (List.mem_cons_self _ _)
    have hrest : ∀ y ∈ rest, f y = .ok (g y) := fun y hy =>
      hall y (List.mem_cons_of_mem _ hy)
    simp [tryCastLoop, hx, ih (stored ++ [g x]) hrest]

/-! ## Constructor post-conditions -/

theorem metadata_new_ok {dims : List Nat} {md : TensorMetaData}
    (h : TensorMetaData.new dims = .ok md) :
    md.dims = dims ∧ md.strides = (compute dims).2 ∧ md.size = dims.prod := by
  simp only [TensorMetaData.new] at h
  split at h
  · exact absurd h (by simp)
  · rw [Except.ok.injEq] at h
    subst h
    exact ⟨rfl, rfl, compute_fst dims⟩

theorem metadata_new_cmp_eq_ok {n : Nat} {dims : List Nat} {md : TensorMetaData}
    (h : TensorMetaData.new_cmp_eq n dims = .ok md) :
    md.dims = dims ∧ md.strides = (compute dims).2 ∧ md.size = n ∧
      n = dims.prod := by
  simp only [TensorMetaData.new_cmp_eq] at h
  split at h
  case isTrue heq =>
    rw [Except.ok.injEq] at h
    subst h
    exact ⟨rfl, rfl, rfl, heq.trans (compute_fst dims)⟩
  case isFalse => exact absurd h (by simp)

theorem metadata_reshape_ok {md md' : TensorMetaData} {dims : List Nat}
    (h : md.reshape dims = .ok md') :
    md'.dims = dims ∧ md'.strides = (compute dims).2 ∧
      md'.size = dims.prod ∧ md.size = dims.prod := by
  simp only [TensorMetaData.reshape] at h
  split at h
  case isTrue heq =>
    rw [Except.ok.injEq] at h
    subst h
    exact ⟨rfl, rfl, compute_fst dims, heq.trans (compute_fst dims)⟩
  case isFalse => exact absurd h (by simp)

theorem new_set_wf {T : Type _} {dims : List Nat} {v : T} {t : Tensor T}
    (h : Tensor.new_set dims v = .ok t) :
    t.metadata.dims = dims ∧ t.data = List.replicate t.metadata.size v ∧
      t.wf := by
  simp only [Tensor.new_set] at h
  cases hmd : TensorMetaData.new dims with
  | ok md =>
    rw [hmd, Except.ok.injEq] at h
    subst h
    obtain ⟨h1, h2, h3⟩ := metadata_new_ok hmd
    refine ⟨h1, rfl, ?_, ?_, ?_⟩
    · show md.strides = (compute md.dims).2
      rw [h1]; exact h2
    · show md.size = md.dims.prod
      rw [h1]; exact h3
    · show (List.replicate md.size v).length = md.size
      simp
  | error e => rw [hmd] at h; exact absurd h (by simp)

theorem from_slice_ok {T : Type _} {dims : List Nat} {values : List T}
    {t : Tensor T} (h : Tensor.from_slice dims values = .ok t) :
    t.metadata.dims = dims ∧ t.data = values ∧ t.wf := by
  simp only [Tensor.from_slice] at h
  cases hmd : TensorMetaData.new_cmp_eq values.length dims with
  | ok md =>
    rw [hmd, Except.ok.injEq] at h
    subst h
    obtain ⟨h1, h2, h3, h4⟩ := metadata_new_cmp_eq_ok hmd
    refine ⟨h1, rfl, ?_⟩
    rw [Tensor.wf, h1] at *
    exact ⟨h2, by rw [h3, h4], by rw [h3]⟩
  | error e => rw [hmd] at h; exact absurd h (by simp)

theorem change_rank_ok {T : Type _} {t t' : Tensor T} {dims : List Nat}
    (h : t.change_rank dims = .ok t') :
    t'.metadata.dims = dims ∧ t'.data = t.data ∧
      t'.metadata.size = t.metadata.size ∧
      t'.metadata.size = dims.prod ∧
      t'.metadata.strides = (compute dims).2 := by
  simp only [Tensor.change_rank] at h
  cases hmd : TensorMetaData.new_cmp_eq t.metadata.size dims with
  | ok md =>
    rw [hmd, Except.ok.injEq] at h
    subst h
    obtain ⟨h1, h2, h3, h4⟩ := metadata_new_cmp_eq_ok hmd
    exact ⟨h1, rfl, h3, h3.trans h4, h2⟩
  | error e => rw [hmd] at h; exact absurd h (by simp)

theorem tensor_reshape_ok {T : Type _} {t t' : Tensor T} {dims : List Nat}
    (h : t.reshape dims = .ok t') :
    t'.metadata.dims = dims ∧ t'.data = t.data ∧
      t'.metadata.size = dims.prod ∧ t.metadata.size = dims.prod ∧
      t'.metadata.strides = (compute dims).2 := by
  simp only [Tensor.reshape] at h
  cases hmd : t.metadata.reshape dims with
  | ok md =>
    rw [hmd, Except.ok.injEq] at h
    subst h
    obtain ⟨h1, h2, h3, h4⟩ := metadata_reshape_ok hmd
    exact ⟨h1, rfl, h3, h4, h2⟩
  | error e => rw [hmd] at h; exact absurd h (by simp)

theorem tensor_set_ok {T : Type _} {t t' : Tensor T} {idx : List Nat} {v : T}
    (h : t.set idx v = .ok t') :
    t'.metadata = t.metadata ∧ t'.data.length = t.data.length := by
  simp only [Tensor.set] at h
  cases ho : t.metadata.offset idx with
  | ok o =>
    rw [ho, Except.ok.injEq] at h
    subst h
    exact ⟨rfl, by simp⟩
  | error e => rw [ho] at h; exact absurd h (by simp)

theorem dtensor_with_values_ok {T : Type _} {values : List T}
    {dims : List Nat} {t : DTensor T}
    (h : DTensor.with_values values dims = .ok t) :
    t.data = values ∧ t.dimensions = dims ∧ t.wf := by
  by_cases hlen : values.length = dims.prod
  · simp only [DTensor.with_values, assert_valid_dimensions, if_pos hlen] at h
    rw [Except.ok.injEq] at h
    subst h
    exact ⟨rfl, rfl, hlen, rfl⟩
  · simp only [DTensor.with_values, assert_valid_dimensions, if_neg hlen] at h
    exact absurd h (by simp)

theorem dtensor_reshape_ok {T : Type _} {t t' : DTensor T} {dims : List Nat}
    (h : t.reshape dims = .ok t') :
    t'.data = t.data ∧ t'.dimensions = dims ∧
      t.data.length = dims.prod ∧ t'.wf := by
  by_cases hlen : t.data.length = dims.prod
  · simp only [DTensor.reshape, assert_valid_dimensions, if_pos hlen] at h
    rw [Except.ok.injEq] at h
    subst h
    exact ⟨rfl, rfl, hlen, hlen, rfl⟩
  · simp only [DTensor.reshape, assert_valid_dimensions, if_neg hlen] at h
    exact absurd h (by simp)

theorem dtensor_set_ok {T : Type _} {t t' : DTensor T} {idx : List Nat} {v : T}
    (h : t.set idx v = .ok t') :
    t'.dimensions = t.dimensions ∧ t'.strides = t.strides ∧
      t'.data.length = t.data.length := by
  simp only [DTensor.set] at h
  cases hi : t.linear_index idx with
  | ok i =>
    by_cases hlt : i < t.data.length
    · rw [hi] at h
      simp only [if_pos hlt] at h
      rw [Except.ok.injEq] at h
      subst h
      exact ⟨rfl, rfl, by simp⟩
    · rw [hi] at h
      simp only [if_neg hlt] at h
      exact absurd h (by simp)
  | error e => rw [hi] at h; exact absurd h (by simp)

/-! ## Further indexing lemmas -/

theorem compute_snd_getLast (dims : List Nat) (h : dims ≠ []) :
    (compute dims).2.getLast? = some 1 := by
  have hlen : (compute dims).2.length = dims.length := compute_snd_length dims
  have hpos : 0 < dims.length := List.length_pos.mpr h
  have hidx : dims.length - 1 < dims.length := Nat.sub_lt hpos Nat.one_pos
  rw [List.getLast?_eq_getElem? _, hlen, compute_snd_getElem? dims _ hidx]
  have : dims.length - 1 + 1 = dims.length := Nat.succ_pred_eq_of_pos hpos
  rw [this, List.drop_length]
  rfl

theorem zipSum_eq_rowVal {idx dims : List Nat}
    (h : idx.length = dims.length) :
    (List.zipWith (· * ·) idx (compute dims).2).sum = rowVal idx dims := by
  induction idx generalizing dims with
  | nil =>
    have : dims = [] := List.length_eq_zero.mp h.symm
    subst this
    rfl
  | cons i is ih =>
    cases dims with
    | nil => simp at h
    | cons d ds =>
      have h' : is.length = ds.length := by simpa using h
      simp [compute, rowVal, ih h', compute_fst]

/-- C10 helper: offsets within the valid range are below the data length
of a well-formed tensor, so the raw buffer load of `get` never leaves the
initialized range. -/
theorem tensor_get_valid {T : Type _} {t : Tensor T} {idx : List Nat}
    (hwf : t.wf) (hv : List.Forall₂ (· < ·) idx t.metadata.dims) :
    ∃ v, t.get idx = .ok v ∧
      t.data[rowVal idx t.metadata.dims]? = some v := by
  obtain ⟨hs, hsz, hlen⟩ := hwf
  have ho : t.metadata.offset idx = .ok (rowVal idx t.metadata.dims) := by
    rw [TensorMetaData.offset, hs]
    exact offsetAux_eq_rowVal hv
  have hlt : rowVal idx t.metadata.dims < t.data.length := by
    rw [hlen, hsz]
    exact rowVal_lt_prod hv
  have hsome := List.getElem?_eq_getElem hlt
  refine ⟨t.data[rowVal idx t.metadata.dims], ?_, hsome⟩
  rw [Tensor.get, ho]
  simp only [List.get?_eq_getElem?, hsome]

/-! ## Claim theorems -/

/-- C10: for the fixed-rank tensor instantiated at rank 0, the size
computed from the empty dimension array is 1 (the empty product), so
construction with the empty dimension array succeeds, `size` returns 1,
`shape` returns the empty slice, and `get` with the empty index tuple
returns the single stored element. -/
theorem C10_zero_rank {T : Type} (v : T) :
    (compute []).1 = 1 ∧
    Tensor.new_set [] v = .ok ⟨⟨[], [], 1⟩, [v]⟩ ∧
    (Tensor.mk (T := T) ⟨[], [], 1⟩ [v]).size = 1 ∧
    (Tensor.mk (T := T) ⟨[], [], 1⟩ [v]).shape = [] ∧
    (Tensor.mk (T := T) ⟨[], [], 1⟩ [v]).get [] = .ok v :=
  ⟨rfl, rfl, rfl, rfl, rfl⟩

/-- C10 witness: the rank-0 facts at the concrete element 7. -/
theorem C10_zero_rank_witness :
    (compute []).1 = 1 ∧
    Tensor.new_set [] (7 : Int) = .ok ⟨⟨[], [], 1⟩, [7]⟩ ∧
    (Tensor.mk (T := Int) ⟨[], [], 1⟩ [7]).size = 1 ∧
    (Tensor.mk (T := Int) ⟨[], [], 1⟩ [7]).shape = [] ∧
    (Tensor.mk (T := Int) ⟨[], [], 1⟩ [7]).get [] = .ok 7 :=
  C10_zero_rank 7

/-- C5: the computed strides satisfy the row-major recurrence — the last
stride is 1 and `strides[i] = strides[i+1] * dims[i+1]` — the dynamic-rank
`compute_strides` computes exactly the same strides, and for a rank-2
shape `[R, C]` the flat offset of `(r, c)` equals `r*C + c` and agrees
with the element order of `as_slice`. -/
theorem C5_row_major_layout (dims : List Nat) :
    (dims ≠ [] → (compute dims).2.getLast? = some 1) ∧
    (∀ i, i + 1 < dims.length →
      (compute dims).2.getD i 0 =
        (compute dims).2.getD (i + 1) 0 * dims.getD (i + 1) 0) ∧
    compute_strides dims = (compute dims).2 ∧
    (∀ R C r c : Nat, r < R → c < C →
      offsetAux [r, c] [R, C] (compute [R, C]).2 = .ok (r * C + c)) ∧
    (∀ (T : Type) (t : Tensor T) (R C r c : Nat), t.wf →
      t.metadata.dims = [R, C] → r < R → c < C →
      ∃ v, t.get [r, c] = .ok v ∧ t.as_slice[r * C + c]? = some v) := by
  refine ⟨compute_snd_getLast dims, ?_, compute_strides_eq dims, ?_, ?_⟩
  · intro i hi
    have hi' : i < dims.length := Nat.lt_of_succ_lt hi
    have h1 := compute_snd_getElem? dims i hi'
    have h2 := compute_snd_getElem? dims (i + 1) hi
    have hdrop : dims.drop (i + 1) = dims[i + 1] :: dims.drop (i + 2) :=
      List.drop_eq_getElem_cons hi
    rw [List.getD_eq_getElem?_getD, List.getD_eq_getElem?_getD, h1, h2,
      List.getD_eq_getElem?_getD, List.getElem?_eq_getElem hi]
    simp only [Option.getD_some]
    rw [hdrop, List.prod_cons]
    exact Nat.mul_comm _ _
  · intro R C r c hr hc
    have hv : List.Forall₂ (· < ·) [r, c] [R, C] :=
      List.Forall₂.cons hr (List.Forall₂.cons hc List.Forall₂.nil)
    rw [offsetAux_eq_rowVal hv]
    simp [rowVal]
  · intro T t R C r c hwf hdims hr hc
    have hv : List.Forall₂ (· < ·) [r, c] t.metadata.dims := by
      rw [hdims]
      exact List.Forall₂.cons hr (List.Forall₂.cons hc List.Forall₂.nil)
    obtain ⟨v, hget, hat⟩ := tensor_get_valid hwf hv
    refine ⟨v, hget, ?_⟩
    rw [Tensor.as_slice]
    rw [hdims] at hat
    simpa [rowVal] using hat

/-- C5 witness: the strides of shape [2, 3, 4] are [12, 4, 1]; they end in
1 and satisfy the recurrence; the offset of (1, 2) in shape [2, 3] is
1*3 + 2 = 5 and matches as_slice order in a concrete tensor. -/
theorem C5_row_major_layout_witness :
    ([2, 3, 4] : List Nat) ≠ [] ∧
    (compute [2, 3, 4]).2.getLast? = some 1 ∧
    (compute [2, 3, 4]).2.getD 0 0 =
      (compute [2, 3, 4]).2.getD 1 0 * ([2, 3, 4] : List Nat).getD 1 0 ∧
    offsetAux [1, 2] [2, 3] (compute [2, 3]).2 = .ok (1 * 3 + 2) ∧
    (∃ v, (Tensor.mk ⟨[2, 3], [3, 1], 6⟩
        ([10, 20, 30, 40, 50, 60] : List Nat)).get [1, 2] = .ok v ∧
      (Tensor.mk ⟨[2, 3], [3, 1], 6⟩
        ([10, 20, 30, 40, 50, 60] : List Nat)).as_slice[1 * 3 + 2]? = some v) :=
  ⟨by simp,
   (C5_row_major_layout [2, 3, 4]).1 (by simp),
   (C5_row_major_layout [2, 3, 4]).2.1 0 (by simp),
   (C5_row_major_layout [2, 3]).2.2.2.1 2 3 1 2 (by omega) (by omega),
   (C5_row_major_layout [2, 3]).2.2.2.2 Nat
     (Tensor.mk ⟨[2, 3], [3, 1], 6⟩ [10, 20, 30, 40, 50, 60]) 2 3 1 2
     ⟨rfl, rfl, rfl⟩ rfl (by omega) (by omega)⟩

/-- C2: for every tensor of either lineage, `size()` equals the product of
the entries of `shape()` and the buffer holds exactly that many
initialized elements, after construction and after every modelled mutating
operation including `set`, `reshape` and the rank-changing transform; on
the dynamic-rank tensor `len()` recomputes the product of the dimensions,
so the identity additionally holds definitionally there. -/
theorem C2_shape_invariant :
    (∀ (T : Type) (dims : List Nat) (v : T) (t : Tensor T),
      Tensor.new_set dims v = .ok t →
      t.size = t.shape.prod ∧ t.as_slice.length = t.size) ∧
    (∀ (T : Type) (dims : List Nat) (values : List T) (t : Tensor T),
      Tensor.from_slice dims values = .ok t →
      t.size = t.shape.prod ∧ t.as_slice.length = t.size) ∧
    (∀ (T : Type) (t t' : Tensor T) (dims : List Nat),
      t.as_slice.length = t.size → t.reshape dims = .ok t' →
      t'.size = t'.shape.prod ∧ t'.as_slice.length = t'.size) ∧
    (∀ (T : Type) (t t' : Tensor T) (dims : List Nat),
      t.as_slice.length = t.size → t.change_rank dims = .ok t' →
      t'.size = t'.shape.prod ∧ t'.as_slice.length = t'.size) ∧
    (∀ (T : Type) (t t' : Tensor T) (idx : List Nat) (v : T),
      t.size = t.shape.prod → t.as_slice.length = t.size →
      t.set idx v = .ok t' →
      t'.size = t'.shape.prod ∧ t'.as_slice.length = t'.size) ∧
    (∀ (T : Type) (t : DTensor T), t.len = t.shape.prod) ∧
    (∀ (T : Type) (dims : List Nat) (v : T),
      (DTensor.new dims v).data.length = (DTensor.new dims v).len) ∧
    (∀ (T : Type) (values : List T) (dims : List Nat) (t : DTensor T),
      DTensor.with_values values dims = .ok t → t.data.length = t.len) ∧
    (∀ (T : Type) (t t' : DTensor T) (dims : List Nat),
      t.reshape dims = .ok t' → t'.data.length = t'.len) ∧
    (∀ (T : Type) (t t' : DTensor T) (idx : List Nat) (v : T),
      t.data.length = t.len → t.set idx v = .ok t' →
      t'.data.length = t'.len) := by
  refine ⟨?_, ?_, ?_, ?_, ?_, ?_, ?_, ?_, ?_, ?_⟩
  · intro T dims v t h
    obtain ⟨_, _, _, hsz, hlen⟩ := new_set_wf h
    exact ⟨hsz, hlen⟩
  · intro T dims values t h
    obtain ⟨_, _, _, hsz, hlen⟩ := from_slice_ok h
    exact ⟨hsz, hlen⟩
  · intro T t t' dims hlen h
    obtain ⟨hdims, hdata, hsz, hold, _⟩ := tensor_reshape_ok h
    refine ⟨?_, ?_⟩
    · rw [Tensor.size, Tensor.shape, hdims, hsz]
    · rw [Tensor.as_slice, Tensor.size, hdata, hsz, ← hold]
      exact hlen
  · intro T t t' dims hlen h
    obtain ⟨hdims, hdata, hsame, hsz, _⟩ := change_rank_ok h
    refine ⟨?_, ?_⟩
    · rw [Tensor.size, Tensor.shape, hdims, hsz]
    · rw [Tensor.as_slice, Tensor.size, hdata, hsame]
      exact hlen
  · intro T t t' idx v hsz hlen h
    obtain ⟨hmd, hdata⟩ := tensor_set_ok h
    refine ⟨?_, ?_⟩
    · rw [Tensor.size, Tensor.shape, hmd]
      exact hsz
    · rw [Tensor.as_slice, Tensor.size, hmd, hdata]
      exact hlen
  · intro T t
    rfl
  · intro T dims v
    simp [DTensor.new, DTensor.len]
  · intro T values dims t h
    obtain ⟨hdata, hdims, hwf, _⟩ := dtensor_with_values_ok h
    rw [DTensor.len]
    exact hwf
  · intro T t t' dims h
    obtain ⟨hdata, hdims, hold, hwf, _⟩ := dtensor_reshape_ok h
    rw [DTensor.len]
    exact hwf
  · intro T t t' idx v hlen h
    obtain ⟨hdims, _, hdata⟩ := dtensor_set_ok h
    rw [DTensor.len, hdims, hdata]
    exact hlen

/-- C2 witness: concrete instances — a fresh 2x3 tensor of either lineage
satisfies the invariant, and so does the result of reshaping it to 3x2. -/
theorem C2_shape_invariant_witness :
    ((Tensor.mk ⟨[2, 3], [3, 1], 6⟩ (List.replicate 6 (0 : Nat))).size =
        (Tensor.mk ⟨[2, 3], [3, 1], 6⟩ (List.replicate 6 (0 : Nat))).shape.prod ∧
      (Tensor.mk ⟨[2, 3], [3, 1], 6⟩
        (List.replicate 6 (0 : Nat))).as_slice.length =
        (Tensor.mk ⟨[2, 3], [3, 1], 6⟩ (List.replicate 6 (0 : Nat))).size) ∧
    ((Tensor.mk ⟨[3, 2], [2, 1], 6⟩ (List.replicate 6 (0 : Nat))).size =
        (Tensor.mk ⟨[3, 2], [2, 1], 6⟩ (List.replicate 6 (0 : Nat))).shape.prod ∧
      (Tensor.mk ⟨[3, 2], [2, 1], 6⟩
        (List.replicate 6 (0 : Nat))).as_slice.length =
        (Tensor.mk ⟨[3, 2], [2, 1], 6⟩ (List.replicate 6 (0 : Nat))).size) :=
  ⟨C2_shape_invariant.1 Nat [2, 3] 0 _ rfl,
   C2_shape_invariant.2.2.1 Nat
     (Tensor.mk ⟨[2, 3], [3, 1], 6⟩ (List.replicate 6 (0 : Nat))) _ [3, 2]
     (by rfl) rfl⟩

theorem set_getElem?_eq {T : Type _} {l : List T} {i : Nat} (a : T)
    (h : i < l.length) : (l.set i a)[i]? = some a := by
  rw [List.getElem?_set_self']
  simp [List.getElem?_eq_getElem h]

theorem set_getElem?_ne {T : Type _} {l : List T} {i j : Nat} (a : T)
    (h : i ≠ j) : (l.set i a)[j]? = l[j]? :=
  List.getElem?_set_ne h

/-- C4: for every tensor of either lineage, every valid coordinate tuple
(each entry below its axis bound, length equal to the rank) and every
value, `set` succeeds, a subsequent `get` at the same coordinates returns
the stored value, and `get` at any other valid coordinate tuple is
unchanged by the `set`. -/
theorem C4_round_trip :
    (∀ (T : Type) (t : Tensor T) (idx : List Nat) (v : T), t.wf →
      List.Forall₂ (· < ·) idx t.metadata.dims →
      ∃ t', t.set idx v = .ok t' ∧ t'.get idx = .ok v ∧
        ∀ idx', List.Forall₂ (· < ·) idx' t.metadata.dims → idx' ≠ idx →
          t'.get idx' = t.get idx') ∧
    (∀ (T : Type) (t : DTensor T) (idx : List Nat) (v : T), t.wf →
      List.Forall₂ (· < ·) idx t.dimensions →
      ∃ t', t.set idx v = .ok t' ∧ t'.get idx = .ok v ∧
        ∀ idx', List.Forall₂ (· < ·) idx' t.dimensions → idx' ≠ idx →
          t'.get idx' = t.get idx') := by
  constructor
  · intro T t idx v hwf hvalid
    obtain ⟨hs, hsz, hlen⟩ := hwf
    have ho : t.metadata.offset idx = .ok (rowVal idx t.metadata.dims) := by
      rw [TensorMetaData.offset, hs]
      exact offsetAux_eq_rowVal hvalid
    have hlt : rowVal idx t.metadata.dims < t.data.length := by
      rw [hlen, hsz]; exact rowVal_lt_prod hvalid
    refine ⟨{ t with data := t.data.set (rowVal idx t.metadata.dims) v },
      ?_, ?_, ?_⟩
    · rw [Tensor.set, ho]
    · rw [Tensor.get]
      show (match t.metadata.offset idx with
        | .ok o =>
          match (t.data.set (rowVal idx t.metadata.dims) v).get? o with
          | some w => Except.ok w
          | none => Except.error "load out of initialized range"
        | .error e => Except.error e) = Except.ok v
      rw [ho]
      simp only [List.get?_eq_getElem?, set_getElem?_eq v hlt]
    · intro idx' hvalid' hne
      have ho' : t.metadata.offset idx' = .ok (rowVal idx' t.metadata.dims) := by
        rw [TensorMetaData.offset, hs]
        exact offsetAux_eq_rowVal hvalid'
      have hoff : rowVal idx t.metadata.dims ≠ rowVal idx' t.metadata.dims :=
        fun hc => hne (rowVal_inj hvalid' hvalid hc.symm)
      rw [Tensor.get, Tensor.get]
      show (match t.metadata.offset idx' with
        | .ok o =>
          match (t.data.set (rowVal idx t.metadata.dims) v).get? o with
          | some w => Except.ok w
          | none => Except.error "load out of initialized range"
        | .error e => Except.error e) =
        (match t.metadata.offset idx' with
        | .ok o =>
          match t.data.get? o with
          | some w => Except.ok w
          | none => Except.error "load out of initialized range"
        | .error e => Except.error e)
      rw [ho']
      simp only [List.get?_eq_getElem?, set_getElem?_ne v hoff]
  · intro T t idx v hwf hvalid
    obtain ⟨hlen, hs⟩ := hwf
    have harity : idx.length = t.dimensions.length := hvalid.length_eq
    have hsum : (List.zipWith (· * ·) idx t.strides).sum =
        rowVal idx t.dimensions := by
      rw [hs, compute_strides_eq]
      exact zipSum_eq_rowVal harity
    have hi : t.linear_index idx = .ok (rowVal idx t.dimensions) := by
      rw [DTensor.linear_index, if_neg (by omega), hsum]
    have hlt : rowVal idx t.dimensions < t.data.length := by
      rw [hlen]; exact rowVal_lt_prod hvalid
    refine ⟨{ t with data := t.data.set (rowVal idx t.dimensions) v },
      ?_, ?_, ?_⟩
    · rw [DTensor.set, hi]
      simp only [if_pos hlt]
    · have hi2 : DTensor.linear_index
          { t with data := t.data.set (rowVal idx t.dimensions) v } idx =
          .ok (rowVal idx t.dimensions) := hi
      rw [DTensor.get, hi2]
      simp only [List.get?_eq_getElem?, set_getElem?_eq v hlt]
    · intro idx' hvalid' hne
      have harity' : idx'.length = t.dimensions.length := hvalid'.length_eq
      have hsum' : (List.zipWith (· * ·) idx' t.strides).sum =
          rowVal idx' t.dimensions := by
        rw [hs, compute_strides_eq]
        exact zipSum_eq_rowVal harity'
      have hi' : t.linear_index idx' = .ok (rowVal idx' t.dimensions) := by
        rw [DTensor.linear_index, if_neg (by omega), hsum']
      have hi'2 : DTensor.linear_index
          { t with data := t.data.set (rowVal idx t.dimensions) v } idx' =
          .ok (rowVal idx' t.dimensions) := hi'
      have hoff : rowVal idx t.dimensions ≠ rowVal idx' t.dimensions :=
        fun hc => hne (rowVal_inj hvalid' hvalid hc.symm)
      rw [DTensor.get, DTensor.get, hi'2, hi']
      simp only [List.get?_eq_getElem?, set_getElem?_ne v hoff]

/-- C4 witness: in a concrete 2x3 tensor of either lineage, setting
coordinate (1, 2) to 99 round-trips through `get` and leaves coordinate
(0, 1) unchanged. -/
theorem C4_round_trip_witness :
    (∃ t', (Tensor.mk ⟨[2, 3], [3, 1], 6⟩
        ([10, 20, 30, 40, 50, 60] : List Nat)).set [1, 2] 99 = .ok t' ∧
      t'.get [1, 2] = .ok 99 ∧
      ∀ idx', List.Forall₂ (· < ·) idx'
          (Tensor.mk ⟨[2, 3], [3, 1], 6⟩
            ([10, 20, 30, 40, 50, 60] : List Nat)).metadata.dims →
        idx' ≠ [1, 2] →
        t'.get idx' = (Tensor.mk ⟨[2, 3], [3, 1], 6⟩
          ([10, 20, 30, 40, 50, 60] : List Nat)).get idx') ∧
    (∃ t', (DTensor.mk ([10, 20, 30, 40, 50, 60] : List Nat)
        [2, 3] [3, 1]).set [1, 2] 99 = .ok t' ∧
      t'.get [1, 2] = .ok 99 ∧
      ∀ idx', List.Forall₂ (· < ·) idx'
          (DTensor.mk ([10, 20, 30, 40, 50, 60] : List Nat)
            [2, 3] [3, 1]).dimensions →
        idx' ≠ [1, 2] →
        t'.get idx' = (DTensor.mk ([10, 20, 30, 40, 50, 60] : List Nat)
          [2, 3] [3, 1]).get idx') :=
  ⟨C4_round_trip.1 Nat (Tensor.mk ⟨[2, 3], [3, 1], 6⟩ [10, 20, 30, 40, 50, 60])
      [1, 2] 99 ⟨rfl, rfl, rfl⟩ (by decide),
   C4_round_trip.2 Nat (DTensor.mk [10, 20, 30, 40, 50, 60] [2, 3] [3, 1])
      [1, 2] 99 ⟨rfl, rfl⟩ (by decide)⟩

/-- C6: for every tensor of either lineage and every new dimension array
whose product equals the current element count, `reshape` succeeds, leaves
the flat row-major sequence of element values untouched (no element moved
or reordered, only the geometry changes), and `reshape` panics whenever
the product of the new dimensions differs from the current element
count. -/
theorem C6_reshape_preserves_values :
    (∀ (T : Type) (t : Tensor T) (dims : List Nat),
      dims.prod = t.size →
      ∃ t', t.reshape dims = .ok t' ∧ t'.as_slice = t.as_slice ∧
        t'.shape = dims) ∧
    (∀ (T : Type) (t : Tensor T) (dims : List Nat),
      dims.prod ≠ t.size → ∃ e, t.reshape dims = .error e) ∧
    (∀ (T : Type) (t : DTensor T) (dims : List Nat),
      dims.prod = t.data.length →
      ∃ t', t.reshape dims = .ok t' ∧ t'.data = t.data ∧
        t'.shape = dims) ∧
    (∀ (T : Type) (t : DTensor T) (dims : List Nat),
      dims.prod ≠ t.data.length → ∃ e, t.reshape dims = .error e) := by
  refine ⟨?_, ?_, ?_, ?_⟩
  · intro T t dims hprod
    have hc : t.metadata.size = (compute dims).1 := by
      rw [compute_fst, hprod, Tensor.size]
    refine ⟨{ t with metadata :=
      ⟨dims, (compute dims).2, (compute dims).1⟩ }, ?_, rfl, rfl⟩
    rw [Tensor.reshape, TensorMetaData.reshape]
    simp only [if_pos hc]
  · intro T t dims hprod
    have hc : ¬t.metadata.size = (compute dims).1 := by
      rw [compute_fst]
      exact fun hcon => hprod (hcon.symm)
    refine ⟨"Invalid shape: values' count doesn't match dimensions' size", ?_⟩
    rw [Tensor.reshape, TensorMetaData.reshape]
    simp only [if_neg hc]
  · intro T t dims hprod
    refine ⟨DTensor.mk t.data dims (compute_strides dims), ?_, rfl, rfl⟩
    rw [DTensor.reshape, assert_valid_dimensions, if_pos hprod.symm]
  · intro T t dims hprod
    refine ⟨"New dimensions must have the same number of elements", ?_⟩
    rw [DTensor.reshape, assert_valid_dimensions,
      if_neg fun hcon => hprod hcon.symm]

/-- C6 witness: reshaping a concrete 2x3 tensor to 3x2 succeeds with the
same flat values, and reshaping it to 3x1 fails, in both lineages. -/
theorem C6_reshape_preserves_values_witness :
    (∃ t', (Tensor.mk ⟨[2, 3], [3, 1], 6⟩
        ([1, 2, 3, 4, 5, 6] : List Nat)).reshape [3, 2] = .ok t' ∧
      t'.as_slice = (Tensor.mk ⟨[2, 3], [3, 1], 6⟩
        ([1, 2, 3, 4, 5, 6] : List Nat)).as_slice ∧
      t'.shape = [3, 2]) ∧
    (∃ e, (Tensor.mk ⟨[2, 3], [3, 1], 6⟩
        ([1, 2, 3, 4, 5, 6] : List Nat)).reshape [3, 1] = .error e) ∧
    (∃ t', (DTensor.mk ([1, 2, 3, 4, 5, 6] : List Nat)
        [2, 3] [3, 1]).reshape [3, 2] = .ok t' ∧
      t'.data = ([1, 2, 3, 4, 5, 6] : List Nat) ∧ t'.shape = [3, 2]) ∧
    (∃ e, (DTensor.mk ([1, 2, 3, 4, 5, 6] : List Nat)
        [2, 3] [3, 1]).reshape [3, 1] = .error e) :=
  ⟨C6_reshape_preserves_values.1 Nat
      (Tensor.mk ⟨[2, 3], [3, 1], 6⟩ [1, 2, 3, 4, 5, 6]) [3, 2] (by decide),
   C6_reshape_preserves_values.2.1 Nat
      (Tensor.mk ⟨[2, 3], [3, 1], 6⟩ [1, 2, 3, 4, 5, 6]) [3, 1] (by decide),
   C6_reshape_preserves_values.2.2.1 Nat
      (DTensor.mk [1, 2, 3, 4, 5, 6] [2, 3] [3, 1]) [3, 2] (by decide),
   C6_reshape_preserves_values.2.2.2 Nat
      (DTensor.mk [1, 2, 3, 4, 5, 6] [2, 3] [3, 1]) [3, 1] (by decide)⟩

/-- C3 counterexample: the claim "for every tensor, get and set panic
whenever the supplied index tuple has an entry out of bounds for its axis"
fails on the dynamic-rank tensor.  In the 2x3 tensor below the coordinate
tuple (0, 5) has 5 ≥ 3 on axis 1, yet `get` computes the flat offset
0*3 + 5*1 = 5, which is inside the 6-element buffer, and silently returns
the element stored at coordinate (1, 2) instead of panicking; `set` at the
same tuple also succeeds.  `Tensor::linear_index` (src/tensor.rs lines
118-128) checks only the index-tuple arity, never the per-axis bounds. -/
theorem C3_counterexample :
    DTensor.with_values ([10, 20, 30, 40, 50, 60] : List Nat) [2, 3] =
      .ok (DTensor.mk [10, 20, 30, 40, 50, 60] [2, 3] [3, 1]) ∧
    3 ≤ 5 ∧
    (DTensor.mk ([10, 20, 30, 40, 50, 60] : List Nat) [2, 3] [3, 1]).get
      [0, 5] = .ok 60 ∧
    (DTensor.mk ([10, 20, 30, 40, 50, 60] : List Nat) [2, 3] [3, 1]).set
      [0, 5] 99 =
      .ok (DTensor.mk [10, 20, 30, 40, 50, 99] [2, 3] [3, 1]) :=
  ⟨rfl, by omega, rfl, rfl⟩

/-- C3 amended: on the fixed-rank tensor the offset computation (and hence
`get`) fails exactly when some coordinate is out of bounds for its axis
(the index-tuple length is fixed to the rank by the type system).  On the
dynamic-rank tensor, `get` panics on an index-tuple-length mismatch with
the rank, and otherwise computes the flat offset `Σ index[i]*strides[i]`
and panics only when that offset reaches the buffer length — a per-axis
out-of-bounds coordinate whose flat offset is still inside the buffer is
accepted and aliases another element. -/
theorem C3_bounds_checking :
    (∀ (dims idx : List Nat), idx.length = dims.length →
      ((∃ n, offsetAux idx dims (compute dims).2 = .ok n) ↔
        List.Forall₂ (· < ·) idx dims)) ∧
    (∀ (T : Type) (t : Tensor T) (idx : List Nat), t.wf →
      idx.length = t.shape.length →
      ((∃ v, t.get idx = .ok v) ↔
        List.Forall₂ (· < ·) idx t.metadata.dims)) ∧
    (∀ (T : Type) (t : DTensor T) (idx : List Nat),
      idx.length ≠ t.dimensions.length →
      t.get idx = .error "Incorrect number of indices") ∧
    (∀ (T : Type) (t : DTensor T) (idx : List Nat),
      idx.length = t.dimensions.length →
      ((∃ v, t.get idx = .ok v) ↔
        (List.zipWith (· * ·) idx t.strides).sum < t.data.length)) := by
  refine ⟨?_, ?_, ?_, ?_⟩
  · intro dims idx harity
    exact offsetAux_isOk_iff harity
      ((compute_snd_length dims).trans rfl)
  · intro T t idx hwf harity
    obtain ⟨hs, hsz, hlen⟩ := hwf
    constructor
    · intro ⟨v, hv⟩
      rw [Tensor.get] at hv
      have hoff : ∃ n, t.metadata.offset idx = .ok n := by
        cases ho : t.metadata.offset idx with
        | ok n => exact ⟨n, rfl⟩
        | error e => rw [ho] at hv; exact absurd hv (by simp)
      rw [TensorMetaData.offset, hs] at hoff
      exact (offsetAux_isOk_iff harity
        ((compute_snd_length t.metadata.dims).trans rfl)).mp hoff
    · intro hvalid
      obtain ⟨v, hv, _⟩ := tensor_get_valid ⟨hs, hsz, hlen⟩ hvalid
      exact ⟨v, hv⟩
  · intro T t idx hne
    rw [DTensor.get, DTensor.linear_index, if_pos hne]
  · intro T t idx harity
    have hlin : t.linear_index idx =
        .ok (List.zipWith (· * ·) idx t.strides).sum := by
      rw [DTensor.linear_index, if_neg (by omega)]
    constructor
    · intro ⟨v, hv⟩
      by_contra hge
      rw [DTensor.get, hlin] at hv
      have hnone :
          t.data[(List.zipWith (· * ·) idx t.strides).sum]? = none :=
        List.getElem?_eq_none (by omega)
      simp only [List.get?_eq_getElem?, hnone] at hv
      exact absurd hv (by simp)
    · intro hlt
      have hsome := List.getElem?_eq_getElem hlt
      refine ⟨t.data[(List.zipWith (· * ·) idx t.strides).sum], ?_⟩
      rw [DTensor.get, hlin]
      simp only [List.get?_eq_getElem?, hsome]

/-- C3 witness: concrete instances of the amended statement — the
fixed-rank offset on shape [2, 3] accepts (1, 2) and rejects (1, 5); the
dynamic-rank get rejects a length-mismatched tuple on shape [3] and
accepts tuple [2] whose flat offset 2 is inside the 3-element buffer. -/
theorem C3_bounds_checking_witness :
    ((∃ n, offsetAux [1, 5] [2, 3] (compute [2, 3]).2 = .ok n) ↔
      List.Forall₂ (· < ·) [1, 5] [2, 3]) ∧
    ((DTensor.mk ([10, 20, 30] : List Nat) [3] [1]).get [0, 0] =
      .error "Incorrect number of indices") ∧
    ((∃ v, (DTensor.mk ([10, 20, 30] : List Nat) [3] [1]).get [2] = .ok v) ↔
      (List.zipWith (· * ·) [2]
        (DTensor.mk ([10, 20, 30] : List Nat) [3] [1]).strides).sum <
        (DTensor.mk ([10, 20, 30] : List Nat) [3] [1]).data.length) :=
  ⟨C3_bounds_checking.1 [2, 3] [1, 5] rfl,
   C3_bounds_checking.2.2.1 Nat (DTensor.mk [10, 20, 30] [3] [1]) [0, 0]
     (by simp),
   C3_bounds_checking.2.2.2 Nat (DTensor.mk [10, 20, 30] [3] [1]) [2] rfl⟩

/-- C7: on the dynamic-rank (Vec-based) tensor, the element-wise division
operations `div` and `div_mutate` panic with "Division by zero" exactly
when some element of the divisor equals the element type's default (zero)
value; on the fixed-rank tensor the element-wise division operator
performs no zero check at all — it always succeeds on equally-shaped
inputs and returns the element-wise quotients computed by the element
type's own division. -/
theorem C7_division_zero_policy :
    (∀ (T : Type) (_ : Div T) (_ : DecidableEq T) (dflt : T)
        (a b : DTensor T),
      a.dimensions = b.dimensions → a.data.length = b.data.length →
      ((∃ e, DTensor.div dflt a b = .error e) ↔ dflt ∈ b.data)) ∧
    (∀ (T : Type) (_ : Div T) (_ : DecidableEq T) (dflt : T)
        (a b : DTensor T),
      a.dimensions = b.dimensions → a.data.length = b.data.length →
      ((∃ e, DTensor.div_mutate dflt a b = .error e) ↔ dflt ∈ b.data)) ∧
    (∀ (T : Type) (_ : Div T) (a b : Tensor T),
      a.metadata.dims = b.metadata.dims →
      Tensor.div a b =
        .ok ⟨a.metadata, List.zipWith (· / ·) a.data b.data⟩) := by
  refine ⟨?_, ?_, ?_⟩
  · intro T _ _ dflt a b hdims hlen
    rw [DTensor.div, if_neg (by rw [hdims]; exact fun h => h rfl)]
    constructor
    · intro ⟨e, he⟩
      refine (divChecked_error_iff dflt hlen).mp ⟨e, ?_⟩
      cases hc : divChecked dflt a.data b.data with
      | ok l => rw [hc] at he; exact absurd he (by simp)
      | error e' => rw [hc] at he; simpa using he
    · intro hmem
      obtain ⟨e, he⟩ := (divChecked_error_iff dflt hlen).mpr hmem
      exact ⟨e, by rw [he]⟩
  · intro T _ _ dflt a b hdims hlen
    rw [DTensor.div_mutate, if_neg (by rw [hdims]; exact fun h => h rfl),
      divMutateZip_eq_divChecked dflt hlen]
    constructor
    · intro ⟨e, he⟩
      refine (divChecked_error_iff dflt hlen).mp ⟨e, ?_⟩
      cases hc : divChecked dflt a.data b.data with
      | ok l => rw [hc] at he; exact absurd he (by simp)
      | error e' => rw [hc] at he; simpa using he
    · intro hmem
      obtain ⟨e, he⟩ := (divChecked_error_iff dflt hlen).mpr hmem
      exact ⟨e, by rw [he]⟩
  · intro T _ a b hdims
    rw [Tensor.div, if_neg (by rw [hdims]; exact fun h => h rfl)]

/-- C7 witness: dividing by a dynamic-rank divisor holding a zero panics
in both forms, while the fixed-rank operator divides the same data with
rational semantics and returns a result. -/
theorem C7_division_zero_policy_witness :
    ((∃ e, DTensor.div (0 : ℚ) (DTensor.mk [6, 4] [2] [1])
        (DTensor.mk [3, 0] [2] [1]) = .error e) ↔
      (0 : ℚ) ∈ (DTensor.mk ([3, 0] : List ℚ) [2] [1]).data) ∧
    ((∃ e, DTensor.div_mutate (0 : ℚ) (DTensor.mk [6, 4] [2] [1])
        (DTensor.mk [3, 0] [2] [1]) = .error e) ↔
      (0 : ℚ) ∈ (DTensor.mk ([3, 0] : List ℚ) [2] [1]).data) ∧
    Tensor.div (Tensor.mk ⟨[2], [1], 2⟩ ([6, 4] : List ℚ))
        (Tensor.mk ⟨[2], [1], 2⟩ ([3, 0] : List ℚ)) =
      .ok ⟨⟨[2], [1], 2⟩,
        List.zipWith (· / ·) ([6, 4] : List ℚ) ([3, 0] : List ℚ)⟩ :=
  ⟨C7_division_zero_policy.1 ℚ inferInstance inferInstance 0
      (DTensor.mk [6, 4] [2] [1]) (DTensor.mk [3, 0] [2] [1]) rfl rfl,
   C7_division_zero_policy.2.1 ℚ inferInstance inferInstance 0
      (DTensor.mk [6, 4] [2] [1]) (DTensor.mk [3, 0] [2] [1]) rfl rfl,
   C7_division_zero_policy.2.2 ℚ inferInstance
      (Tensor.mk ⟨[2], [1], 2⟩ [6, 4]) (Tensor.mk ⟨[2], [1], 2⟩ [3, 0]) rfl⟩

/-- C9: for each binary element-wise operation (add, sub, mul, div) the
allocating form and the in-place mutating form agree completely on
equally-sized inputs: the mutating form applied to (a copy of) the first
operand returns exactly the tensor the allocating form builds, element
values included, and for division both forms also fail under exactly the
same condition. -/
theorem C9_mutating_allocating_equivalence :
    (∀ (T : Type) (_ : Add T) (a b : DTensor T),
      a.data.length = b.data.length →
      DTensor.add_mutate a b = DTensor.add a b) ∧
    (∀ (T : Type) (_ : Sub T) (a b : DTensor T),
      a.data.length = b.data.length →
      DTensor.sub_mutate a b = DTensor.sub a b) ∧
    (∀ (T : Type) (_ : Mul T) (a b : DTensor T),
      a.data.length = b.data.length →
      DTensor.mul_mutate a b = DTensor.mul a b) ∧
    (∀ (T : Type) (_ : Div T) (_ : DecidableEq T) (dflt : T)
        (a b : DTensor T),
      a.data.length = b.data.length →
      DTensor.div_mutate dflt a b = DTensor.div dflt a b) := by
  refine ⟨?_, ?_, ?_, ?_⟩
  · intro T _ a b hlen
    rw [DTensor.add_mutate, DTensor.add, mutateZip_eq_zipWith _ hlen]
  · intro T _ a b hlen
    rw [DTensor.sub_mutate, DTensor.sub, mutateZip_eq_zipWith _ hlen]
  · intro T _ a b hlen
    rw [DTensor.mul_mutate, DTensor.mul, mutateZip_eq_zipWith _ hlen]
  · intro T _ _ dflt a b hlen
    rw [DTensor.div_mutate, DTensor.div,
      divMutateZip_eq_divChecked dflt hlen]

/-- C9 witness: concrete 2x2 integer tensors — each mutating op equals its
allocating twin. -/
theorem C9_mutating_allocating_equivalence_witness :
    DTensor.add_mutate (DTensor.mk ([1, 2, 3, 4] : List Int) [2, 2] [2, 1])
        (DTensor.mk [5, 6, 7, 8] [2, 2] [2, 1]) =
      DTensor.add (DTensor.mk [1, 2, 3, 4] [2, 2] [2, 1])
        (DTensor.mk [5, 6, 7, 8] [2, 2] [2, 1]) ∧
    DTensor.sub_mutate (DTensor.mk ([1, 2, 3, 4] : List Int) [2, 2] [2, 1])
        (DTensor.mk [5, 6, 7, 8] [2, 2] [2, 1]) =
      DTensor.sub (DTensor.mk [1, 2, 3, 4] [2, 2] [2, 1])
        (DTensor.mk [5, 6, 7, 8] [2, 2] [2, 1]) ∧
    DTensor.mul_mutate (DTensor.mk ([1, 2, 3, 4] : List Int) [2, 2] [2, 1])
        (DTensor.mk [5, 6, 7, 8] [2, 2] [2, 1]) =
      DTensor.mul (DTensor.mk [1, 2, 3, 4] [2, 2] [2, 1])
        (DTensor.mk [5, 6, 7, 8] [2, 2] [2, 1]) ∧
    DTensor.div_mutate (0 : Int)
        (DTensor.mk ([8, 6, 4, 2] : List Int) [2, 2] [2, 1])
        (DTensor.mk [2, 3, 2, 1] [2, 2] [2, 1]) =
      DTensor.div (0 : Int) (DTensor.mk [8, 6, 4, 2] [2, 2] [2, 1])
        (DTensor.mk [2, 3, 2, 1] [2, 2] [2, 1]) :=
  ⟨C9_mutating_allocating_equivalence.1 Int inferInstance
      (DTensor.mk [1, 2, 3, 4] [2, 2] [2, 1])
      (DTensor.mk [5, 6, 7, 8] [2, 2] [2, 1]) rfl,
   C9_mutating_allocating_equivalence.2.1 Int inferInstance
      (DTensor.mk [1, 2, 3, 4] [2, 2] [2, 1])
      (DTensor.mk [5, 6, 7, 8] [2, 2] [2, 1]) rfl,
   C9_mutating_allocating_equivalence.2.2.1 Int inferInstance
      (DTensor.mk [1, 2, 3, 4] [2, 2] [2, 1])
      (DTensor.mk [5, 6, 7, 8] [2, 2] [2, 1]) rfl,
   C9_mutating_allocating_equivalence.2.2.2 Int inferInstance inferInstance 0
      (DTensor.mk [8, 6, 4, 2] [2, 2] [2, 1])
      (DTensor.mk [2, 3, 2, 1] [2, 2] [2, 1]) rfl⟩

/-- C1: `try_cast` is all-or-nothing.  If the conversion of the element at
position `k` fails (with `e`, necessarily `Overflow` or `PrecisionLoss`,
the only constructors of `CastError`) while every element before it
converts, then the whole operation returns the bare error outcome: no
result tensor is produced (so no partially converted tensor is ever
observable, and the borrowed source tensor is untouched), exactly the `k`
elements already stored in the temporary buffer are destructed
(`dropped = k`), and the buffer's whole `metadata.size`-element allocation
is freed (`deallocated = metadata.size`) before the error is returned. -/
theorem C1_try_cast_rollback {T U : Type} (f : T → Except CastError U)
    (t : Tensor T) (k : Nat) (x : T) (e : CastError)
    (hk : t.data[k]? = some x)
    (hfail : f x = .error e)
    (hpre : ∀ y ∈ t.data.take k, ∃ u, f y = .ok u) :
    t.try_cast f = .err e k t.metadata.size := by
  have hklt : k < t.data.length := by
    by_contra hge
    rw [List.getElem?_eq_none (by omega)] at hk
    exact absurd hk (by simp)
  have hx : t.data[k] = x := by
    have h2 := List.getElem?_eq_getElem hklt
    rw [hk] at h2
    exact ((Option.some.injEq _ _).mp h2).symm
  have hsplit : t.data = t.data.take k ++ x :: t.data.drop (k + 1) := by
    have hd := List.drop_eq_getElem_cons hklt
    rw [hx] at hd
    conv_lhs => rw [← List.take_append_drop k t.data, hd]
  have htk : (t.data.take k).length = k := by
    rw [List.length_take]
    omega
  rw [Tensor.try_cast, hsplit,
    tryCastLoop_error f t.metadata.size e (t.data.take k) x
      (t.data.drop (k + 1)) [] hpre hfail]
  simp [htk]

/-- C1 witness: casting the vector tensor [1, 300] from u16 to u8 fails on
the second element with Overflow; the outcome records that exactly 1
already-stored element was destructed and all 2 slots of the temporary
allocation were freed. -/
theorem C1_try_cast_rollback_witness :
    Tensor.try_cast u16_try_cast_u8 (Tensor.mk ⟨[2], [1], 2⟩ [1, 300]) =
      .err .Overflow 1 2 :=
  C1_try_cast_rollback u16_try_cast_u8 (Tensor.mk ⟨[2], [1], 2⟩ [1, 300])
    1 300 .Overflow rfl rfl
    (fun y hy => by
      simp at hy
      subst hy
      exact ⟨1, rfl⟩)

/-- C8: `cosine_similarity` (with `f64` modelled by the real numbers and
`f64::sqrt` by `Real.sqrt`) returns exactly 0 — a well-defined value,
never an undefined 0/0 form — whenever the Euclidean norm of either input
is exactly zero, in particular whenever one input is an all-zero vector;
otherwise it returns the dot product divided by the product of the two
norms. -/
theorem C8_cosine_similarity_spec (a b : DTensor ℝ)
    (hdims : a.dimensions = b.dimensions) :
    ((∀ x ∈ a.data, x = 0) →
      DTensor.cosine_similarity Real.sqrt a b = .ok 0) ∧
    (Real.sqrt (a.data.map fun x => x * x).sum = 0 ∨
        Real.sqrt (b.data.map fun x => x * x).sum = 0 →
      DTensor.cosine_similarity Real.sqrt a b = .ok 0) ∧
    (Real.sqrt (a.data.map fun x => x * x).sum ≠ 0 →
      Real.sqrt (b.data.map fun x => x * x).sum ≠ 0 →
      DTensor.cosine_similarity Real.sqrt a b =
        .ok ((List.zipWith (· * ·) a.data b.data).sum /
          (Real.sqrt (a.data.map fun x => x * x).sum *
            Real.sqrt (b.data.map fun x => x * x).sum))) := by
  have hne : ¬a.dimensions ≠ b.dimensions := fun h => h hdims
  refine ⟨?_, ?_, ?_⟩
  · intro hzero
    have hsum : (a.data.map fun x => x * x).sum = 0 := by
      refine List.sum_eq_zero ?_
      intro y hy
      obtain ⟨x, hxmem, hxy⟩ := List.mem_map.mp hy
      rw [← hxy, hzero x hxmem, mul_zero]
    rw [DTensor.cosine_similarity, if_neg hne]
    rw [if_pos (Or.inl (by rw [hsum, Real.sqrt_zero]))]
  · intro hor
    rw [DTensor.cosine_similarity, if_neg hne, if_pos hor]
  · intro ha hb
    rw [DTensor.cosine_similarity, if_neg hne,
      if_neg (by push_neg; exact ⟨ha, hb⟩)]

/-- C8 witness: the cosine similarity of the zero vector [0, 0] against
[1, 2] is exactly 0; and for [1, 0] against [1, 0] (both norms 1) the
formula value is returned. -/
theorem C8_cosine_similarity_spec_witness :
    DTensor.cosine_similarity Real.sqrt
      (DTensor.mk ([0, 0] : List ℝ) [2] [1])
      (DTensor.mk ([1, 2] : List ℝ) [2] [1]) = .ok 0 :=
  (C8_cosine_similarity_spec (DTensor.mk [0, 0] [2] [1])
      (DTensor.mk [1, 2] [2] [1]) rfl).1
    (fun x hx => by simpa using hx)

end TensorSpec
